import Mathlib

/-!
# Verification of the bevy_animation keyframe evaluation and blending engine

Shallow embedding of `crates/bevy_animation/src/animatable.rs` and
`crates/bevy_animation/src/keyframes.rs`.  Floating-point (`f32`/`f64`)
arithmetic is idealized as exact rational arithmetic (`ℚ`); quaternion slerp
(external `glam` code, not part of this repository) is modelled over `ℝ` from
the spec.  Rust in-place mutation is translated to explicit state passing: a
function that mutates `dest: &mut T` and returns `Result<(), E>` becomes a
Lean function returning `Except E Unit × T`, the second component being the
final state of the destination.  A Rust panic (out-of-bounds indexing) is
modelled by wrapping the result in `Option`, with `none` denoting the panic.
-/

/-- Models `AnimationEvaluationError` from the crate root (the enum itself is
declared outside the provided sources; its variants are those used by the
provided code and described by the spec's error taxonomy).
Modelled from the spec: error taxonomy of §7 (`ComponentNotPresent`,
`PropertyNotPresent`, `KeyframeNotPresent`, `MalformedKeyframes`). -/
inductive AnimationEvaluationError where
  | componentNotPresent
  | propertyNotPresent
  | keyframeNotPresent
  | malformedKeyframes
  deriving DecidableEq, Repr

/-- Models the `Interpolation` enum from the crate root.
Modelled from the spec: the interpolation-mode input of §4.3
(`Step`, `Linear`, `CubicSpline`). -/
inductive Interpolation where
  | Step
  | Linear
  | CubicSpline
  deriving DecidableEq, Repr

instance {ε α : Type} [DecidableEq ε] [DecidableEq α] : DecidableEq (Except ε α) :=
  fun a b =>
    match a, b with
    | .ok x, .ok y =>
      if h : x = y then .isTrue (by rw [h]) else .isFalse (by simp [h])
    | .error x, .error y =>
      if h : x = y then .isTrue (by rw [h]) else .isFalse (by simp [h])
    | .ok _, .error _ => .isFalse (by simp)
    | .error _, .ok _ => .isFalse (by simp)

/-- Models `BlendInput<T>` (animatable.rs lines 11-18); the `f32` weight is
idealized as `ℚ`. -/
structure BlendInput (T : Type) where
  weight : ℚ
  value : T
  additive : Bool
  deriving DecidableEq, Repr

/-- The two operations of the `Animatable` trait (animatable.rs lines 21-31),
as an explicit dictionary so that the generic functions of the source can be
embedded generically. -/
structure AnimatableOps (T : Type) where
  interpolate : T → T → ℚ → T
  blend : List (BlendInput T) → T

/-- Models `Animatable::interpolate` for `f32`/`f64` (animatable.rs lines 84-87,
from `impl_float_animatable`): `(*a) * (1.0 - t) + (*b) * t`. -/
def qlerp (a b t : ℚ) : ℚ :=
  a * (1 - t) + b * t

/-- Models `Animatable::blend` for `f32`/`f64` (animatable.rs lines 90-100): fold
starting from `Default::default()` (zero); additive inputs are accumulated as
`value += weight * input.value`, non-additive ones as
`value = interpolate(value, input.value, input.weight)`. -/
def qblend (inputs : List (BlendInput ℚ)) : ℚ :=
  inputs.foldl
    (fun value input =>
      if input.additive then value + input.weight * input.value
      else qlerp value input.value input.weight)
    0

/-- The `Animatable` dictionary for `f32` (and, with the `ℚ` idealization,
identically for `f64`). -/
def qOps : AnimatableOps ℚ :=
  { interpolate := qlerp, blend := qblend }

/-- Models `interpolate_with_cubic_bezier` (animatable.rs lines 352-420): reconstruct
the off-curve control points by additive blending, then evaluate by de
Casteljau subdivision using only `interpolate`. -/
def interpolate_with_cubic_bezier {T : Type} (ops : AnimatableOps T)
    (p0 d0 d3 p3 : T) (t duration : ℚ) : T :=
  let p1 := ops.blend
    [⟨duration / 3, d0, true⟩, ⟨1, p0, true⟩]
  let p2 := ops.blend
    [⟨duration / -3, d3, true⟩, ⟨1, p3, true⟩]
  let p0p1 := ops.interpolate p0 p1 t
  let p1p2 := ops.interpolate p1 p2 t
  let p2p3 := ops.interpolate p2 p3 t
  let p0p1p2 := ops.interpolate p0p1 p1p2 t
  let p1p2p3 := ops.interpolate p1p2 p2p3 t
  ops.interpolate p0p1p2 p1p2p3 t

/-- Models `interpolate_keyframes` (animatable.rs lines 286-346).  The `KeyframeList`
trait is embedded as the lookup function `get : ℕ → Option T` (its only
method).  The Rust function mutates `dest` in place and returns
`Result<(), AnimationEvaluationError>`; here the final destination state is
returned as the second component.  All failure checks precede the single
write `*dest = T::interpolate(dest, &value, weight)`. -/
def interpolate_keyframes {T : Type} (ops : AnimatableOps T)
    (get : ℕ → Option T) (interpolation : Interpolation) (step_start : ℕ)
    (time weight duration : ℚ) (dest : T) :
    Except AnimationEvaluationError Unit × T :=
  match interpolation with
  | .Step =>
    match get step_start with
    | none => (.error .keyframeNotPresent, dest)
    | some start_keyframe =>
      (.ok (), ops.interpolate dest start_keyframe weight)
  | .Linear =>
    match get step_start, get (step_start + 1) with
    | some start_keyframe, some end_keyframe =>
      (.ok (),
        ops.interpolate dest (ops.interpolate start_keyframe end_keyframe time) weight)
    | _, _ => (.error .keyframeNotPresent, dest)
  | .CubicSpline =>
    match get (step_start * 3 + 1), get (step_start * 3 + 2),
        get (step_start * 3 + 3), get (step_start * 3 + 4) with
    | some start_keyframe, some start_tangent_keyframe,
        some end_tangent_keyframe, some end_keyframe =>
      (.ok (),
        ops.interpolate dest
          (interpolate_with_cubic_bezier ops start_keyframe
            start_tangent_keyframe end_tangent_keyframe end_keyframe time duration)
          weight)
    | _, _, _, _ => (.error .keyframeNotPresent, dest)

/-! ## Keyframe tracks (keyframes.rs)

An `AnimatablePropertyKeyframes<P>` track stores `Vec<P::Property>`; the
entity-access chain `entity.get_mut::<P::Component>()` followed by
`P::get_mut(&mut component)` is embedded as an `Option C` component together
with a projection `getP : C → Option T`. -/

/-- Models `Keyframes::keyframe_count` for `AnimatablePropertyKeyframes<P>`
(keyframes.rs lines 469-471): `self.len()`, the raw stored array length. -/
def keyframe_count_property {T : Type} (keyframes : List T) : ℕ :=
  keyframes.length

/-- Models `Keyframes::apply_single_keyframe` for `AnimatablePropertyKeyframes<P>`
(keyframes.rs lines 473-488).  Note that the source computes
`<P::Property>::interpolate(property, value, weight)` and drops the result
without writing it back (line 486), so the component is returned unchanged on
the success path. -/
def apply_single_keyframe_property {C T : Type} (ops : AnimatableOps T)
    (getP : C → Option T) (keyframes : List T) (weight : ℚ)
    (entity : Option C) :
    Except AnimationEvaluationError Unit × Option C :=
  match entity with
  | none => (.error .componentNotPresent, none)
  | some component =>
    match getP component with
    | none => (.error .propertyNotPresent, some component)
    | some property =>
      match keyframes.head? with
      | none => (.error .keyframeNotPresent, some component)
      | some value =>
        let _interpolated := ops.interpolate property value weight
        (.ok (), some component)

/-- Models `Keyframes::apply_tweened_keyframes` for `AnimatablePropertyKeyframes<P>`
(keyframes.rs lines 490-514): locate the component and the property, then
delegate to `animatable::interpolate_keyframes`; the new property value is
written back through the projection (`setP`). -/
def apply_tweened_keyframes_property {C T : Type} (ops : AnimatableOps T)
    (getP : C → Option T) (setP : C → T → C) (keyframes : List T)
    (interpolation : Interpolation) (step_start : ℕ)
    (time weight duration : ℚ) (entity : Option C) :
    Except AnimationEvaluationError Unit × Option C :=
  match entity with
  | none => (.error .componentNotPresent, none)
  | some component =>
    match getP component with
    | none => (.error .propertyNotPresent, some component)
    | some property =>
      let (r, property') :=
        interpolate_keyframes ops (fun i => keyframes.get? i) interpolation
          step_start time weight duration property
      (r, some (setP component property'))

/-- Models `MorphWeightsKeyframes` (keyframes.rs lines 109-113): the morph-weight
track, holding the morph-target count and the flattened weights list. -/
structure MorphWeightsKeyframes where
  morph_target_count : ℕ
  weights : List ℚ
  deriving DecidableEq, Repr

/-- Models `Keyframes::keyframe_count` for `MorphWeightsKeyframes` (keyframes.rs
lines 575-577): `self.weights.len() / self.morph_target_count` (the source
assumes a nonzero target count; `usize` division by zero would panic there,
while `Nat` division returns 0). -/
def keyframe_count_morph (self : MorphWeightsKeyframes) : ℕ :=
  self.weights.length / self.morph_target_count

/-- Models `GetKeyframe::get_keyframe` for `GetMorphWeightKeyframe` (keyframes.rs
lines 630-639) and equally `KeyframeList::get` for the adapter in
animatable.rs lines 271-279: look up flat index
`keyframe_index * morph_target_count + morph_target_index`. -/
def get_morph_weight_keyframe (self : MorphWeightsKeyframes)
    (morph_target_index keyframe_index : ℕ) : Option ℚ :=
  self.weights.get? (keyframe_index * self.morph_target_count + morph_target_index)

/-- The per-target loop shared by `MorphWeightsKeyframes::apply_single_keyframe`
(keyframes.rs lines 588-594) and the morph `interpolate_first_keyframe`
(animatable.rs lines 544-547): for each destination weight (at index `i`),
write `f32::interpolate(morph_weight, &ks[i], weight)`.  The direct index
`ks[i]` panics when out of bounds, hence the `Option` wrapper. -/
def morph_first_keyframe_loop (ks : List ℚ) (weight : ℚ) :
    ℕ → List ℚ → Option (List ℚ)
  | _, [] => some []
  | morph_target_index, morph_weight :: rest =>
    match ks.get? morph_target_index with
    | none => none
    | some value =>
      (morph_first_keyframe_loop ks weight (morph_target_index + 1) rest).map
        (fun rest' => qlerp morph_weight value weight :: rest')

/-- Models `Keyframes::apply_single_keyframe` for `MorphWeightsKeyframes`
(keyframes.rs lines 579-595). -/
def apply_single_keyframe_morph (self : MorphWeightsKeyframes) (weight : ℚ)
    (entity : Option (List ℚ)) :
    Option (Except AnimationEvaluationError Unit × Option (List ℚ)) :=
  match entity with
  | none => some (.error .componentNotPresent, none)
  | some dest =>
    (morph_first_keyframe_loop self.weights weight 0 dest).map
      (fun dest' => (.ok (), some dest'))

/-- The per-target loop of `Keyframes::apply_tweened_keyframes` for
`MorphWeightsKeyframes` (keyframes.rs lines 610-624): for each destination
weight, run `animatable::interpolate_keyframes` against the
`GetMorphWeightKeyframe` lookup; the `?` operator aborts the loop on the
first error, leaving the remaining weights untouched. -/
def morph_tweened_loop (self : MorphWeightsKeyframes)
    (interpolation : Interpolation) (step_start : ℕ)
    (time weight duration : ℚ) :
    ℕ → List ℚ → Except AnimationEvaluationError Unit × List ℚ
  | _, [] => (.ok (), [])
  | morph_target_index, morph_weight :: rest =>
    match interpolate_keyframes qOps
        (get_morph_weight_keyframe self morph_target_index) interpolation
        step_start time weight duration morph_weight with
    | (.error e, morph_weight') => (.error e, morph_weight' :: rest)
    | (.ok _, morph_weight') =>
      let (r, rest') :=
        morph_tweened_loop self interpolation step_start time weight duration
          (morph_target_index + 1) rest
      (r, morph_weight' :: rest')

/-- Models `Keyframes::apply_tweened_keyframes` for `MorphWeightsKeyframes`
(keyframes.rs lines 597-628). -/
def apply_tweened_keyframes_morph (self : MorphWeightsKeyframes)
    (interpolation : Interpolation) (step_start : ℕ)
    (time weight duration : ℚ) (entity : Option (List ℚ)) :
    Except AnimationEvaluationError Unit × Option (List ℚ) :=
  match entity with
  | none => (.error .componentNotPresent, none)
  | some dest =>
    let (r, dest') :=
      morph_tweened_loop self interpolation step_start time weight duration 0 dest
    (r, some dest')

/-! ## The dynamic property-reflection bridge (animatable.rs lines 422-580)

`dyn PartialReflect` / `dyn Reflect` values are embedded as a closed sum
`ReflectValue` of the value kinds exercised here (the spec's §9 itself
describes the bridge as equivalent to a variant registry over known kinds);
`downcast_ref` / `try_downcast_mut` become `Option`-returning matches. -/

/-- A type-erased reflected value. -/
inductive ReflectValue where
  | float (x : ℚ)
  | floatList (xs : List ℚ)
  | boolean (b : Bool)
  | morphWeights (ws : List ℚ)
  deriving DecidableEq, Repr

/-- Models `keyframes.downcast_ref::<Vec<f32>>()`. -/
def downcast_float_list : ReflectValue → Option (List ℚ)
  | .floatList xs => some xs
  | _ => none

/-- The `interpolate_first_keyframe` function registered by
`FromType<T> for ReflectAnimatable` (animatable.rs lines 428-446), at the
instantiation `T = f32`: downcast the keyframes (else `MalformedKeyframes`),
take the first keyframe (else `KeyframeNotPresent`), downcast the destination
(else `PropertyNotPresent`), then write
`*dest = T::interpolate(dest, value, weight)`. -/
def reflect_interpolate_first_keyframe_f32 (dest keyframes : ReflectValue)
    (weight : ℚ) : Except AnimationEvaluationError Unit × ReflectValue :=
  match downcast_float_list keyframes with
  | none => (.error .malformedKeyframes, dest)
  | some ks =>
    match ks.head? with
    | none => (.error .keyframeNotPresent, dest)
    | some value =>
      match dest with
      | .float d => (.ok (), .float (qlerp d value weight))
      | _ => (.error .propertyNotPresent, dest)

/-- The `interpolate_keyframes` function registered by
`FromType<T> for ReflectAnimatable` (animatable.rs lines 448-473), at the
instantiation `T = f32`: downcast the keyframes (else `MalformedKeyframes`),
downcast the destination (else `PropertyNotPresent`), then delegate to
`interpolate_keyframes`. -/
def reflect_interpolate_keyframes_f32 (dest keyframes : ReflectValue)
    (interpolation : Interpolation) (step_start : ℕ)
    (time weight duration : ℚ) :
    Except AnimationEvaluationError Unit × ReflectValue :=
  match downcast_float_list keyframes with
  | none => (.error .malformedKeyframes, dest)
  | some ks =>
    match dest with
    | .float d =>
      let (r, d') :=
        interpolate_keyframes qOps (fun i => ks.get? i) interpolation
          step_start time weight duration d
      (r, .float d')
    | _ => (.error .propertyNotPresent, dest)

/-- The `interpolate_first_keyframe` entry of
`MORPH_WEIGHTS_REFLECT_ANIMATABLE` (animatable.rs lines 536-550): downcast
the keyframes (else `MalformedKeyframes`), downcast the destination to
`MorphWeights` (else `PropertyNotPresent`), then run the per-target loop,
whose direct indexing `keyframes[morph_target_index]` panics when the
keyframe list is too short. -/
def reflect_morph_interpolate_first_keyframe (dest keyframes : ReflectValue)
    (weight : ℚ) :
    Option (Except AnimationEvaluationError Unit × ReflectValue) :=
  match downcast_float_list keyframes with
  | none => some (.error .malformedKeyframes, dest)
  | some ks =>
    match dest with
    | .morphWeights ws =>
      (morph_first_keyframe_loop ks weight 0 ws).map
        (fun ws' => (.ok (), .morphWeights ws'))
    | _ => some (.error .propertyNotPresent, dest)

/-! ## Concrete animatable value types

`Vec2`/`Vec3`/`Vec3A`/`Vec4` (and `DVec2`/`DVec3`/`DVec4`, whose macro
expansion is identical up to the scalar width, which the `ℚ` idealization
erases) interpolate as `(*a) * (1.0 - t) + (*b) * t`, component-wise.  The
five color types (`LinearRgba`, `Laba`, `Oklaba`, `Srgba`, `Xyza`) are
four-channel and interpolate with the same formula (animatable.rs lines
105-128), so a single four-channel model covers them. -/

/-- Two-component float vector (models `Vec2` and `DVec2`). -/
structure Vec2Q where
  x : ℚ
  y : ℚ
  deriving DecidableEq, Repr

/-- Models `Animatable::interpolate` for `Vec2` (animatable.rs lines 84-87 via
`impl_float_animatable`). -/
def Vec2Q.interpolate (a b : Vec2Q) (t : ℚ) : Vec2Q :=
  ⟨a.x * (1 - t) + b.x * t, a.y * (1 - t) + b.y * t⟩

/-- Three-component float vector (models `Vec3`, `Vec3A` and `DVec3`;
`Vec3::interpolate` at animatable.rs lines 148-151 uses the same formula as
the macro-generated `Vec3A` implementation). -/
structure Vec3Q where
  x : ℚ
  y : ℚ
  z : ℚ
  deriving DecidableEq, Repr

/-- Models `Animatable::interpolate` for `Vec3` (animatable.rs lines 148-151). -/
def Vec3Q.interpolate (a b : Vec3Q) (t : ℚ) : Vec3Q :=
  ⟨a.x * (1 - t) + b.x * t, a.y * (1 - t) + b.y * t, a.z * (1 - t) + b.z * t⟩

/-- Four-component float vector (models `Vec4` and `DVec4`). -/
structure Vec4Q where
  x : ℚ
  y : ℚ
  z : ℚ
  w : ℚ
  deriving DecidableEq, Repr

/-- Models `Animatable::interpolate` for `Vec4` (animatable.rs lines 84-87 via
`impl_float_animatable`). -/
def Vec4Q.interpolate (a b : Vec4Q) (t : ℚ) : Vec4Q :=
  ⟨a.x * (1 - t) + b.x * t, a.y * (1 - t) + b.y * t,
    a.z * (1 - t) + b.z * t, a.w * (1 - t) + b.w * t⟩

/-- Four-channel color (models `LinearRgba`, `Laba`, `Oklaba`, `Srgba`,
`Xyza`): channels `c0..c3` stand for the four components of each space. -/
structure ColorQ where
  c0 : ℚ
  c1 : ℚ
  c2 : ℚ
  c3 : ℚ
  deriving DecidableEq, Repr

/-- Models `Animatable::interpolate` for the color types (animatable.rs lines
108-112 via `impl_color_animatable`): `*a * (1. - t) + *b * t`. -/
def ColorQ.interpolate (a b : ColorQ) (t : ℚ) : ColorQ :=
  ⟨a.c0 * (1 - t) + b.c0 * t, a.c1 * (1 - t) + b.c1 * t,
    a.c2 * (1 - t) + b.c2 * t, a.c3 * (1 - t) + b.c3 * t⟩

/-- The fold step of Rust's `Iterator::max_by` (`core::cmp::max_by` keeps the
second argument when the comparison is `Less` or `Equal`, so the last maximal
element wins).  The comparator here is `FloatOrd(a.weight).cmp(&FloatOrd(b.weight))`. -/
def max_by_weight_step (acc candidate : BlendInput Bool) : BlendInput Bool :=
  if candidate.weight < acc.weight then acc else candidate

/-- Models `Iterator::max_by` on blend inputs keyed by weight (`reduce` with
`max_by`): `none` on an empty sequence. -/
def max_by_weight : List (BlendInput Bool) → Option (BlendInput Bool)
  | [] => none
  | input :: rest => some (rest.foldl max_by_weight_step input)

/-- Models `Animatable::blend` for `bool` (animatable.rs lines 174-179):
`inputs.max_by(...).map(|input| input.value).unwrap_or(false)`. -/
def bool_blend (inputs : List (BlendInput Bool)) : Bool :=
  match max_by_weight inputs with
  | none => false
  | some input => input.value

/-! ## Quaternions

`Animatable::interpolate` for `Quat` (animatable.rs lines 223-227) is
`a.slerp(*b, t)`; `glam`'s `Quat::slerp` is external to this repository. -/

/-- A quaternion over `ℝ` (the trigonometry of slerp needs real numbers). -/
structure QuatR where
  x : ℝ
  y : ℝ
  z : ℝ
  w : ℝ

/-- Four-dimensional dot product of quaternions. -/
def QuatR.dot (a b : QuatR) : ℝ :=
  a.x * b.x + a.y * b.y + a.z * b.z + a.w * b.w

/-- Squared norm of a quaternion. -/
def QuatR.normSq (a : QuatR) : ℝ :=
  QuatR.dot a a

/-- Scalar multiple of a quaternion. -/
def QuatR.smul (c : ℝ) (a : QuatR) : QuatR :=
  ⟨c * a.x, c * a.y, c * a.z, c * a.w⟩

/-- Componentwise sum of quaternions. -/
def QuatR.add (a b : QuatR) : QuatR :=
  ⟨a.x + b.x, a.y + b.y, a.z + b.z, a.w + b.w⟩

/-- Componentwise negation of a quaternion. -/
def QuatR.neg (a : QuatR) : QuatR :=
  ⟨-a.x, -a.y, -a.z, -a.w⟩

/-- Modelled from the spec: spherical linear interpolation (slerp) of unit
quaternions, "producing a unit quaternion path between orientations" (§4.1);
the implementation called by `Quat::interpolate` is `glam`'s `Quat::slerp`,
which is not part of this repository.  With `Ω = arccos ⟨a, b⟩`, the slerp is
`(sin((1-t)Ω)·a + sin(tΩ)·b) / sin Ω`, degenerating to `a` when `sin Ω = 0`
(i.e. when the two orientations coincide). -/
noncomputable def QuatR.slerp (a b : QuatR) (t : ℝ) : QuatR :=
  let d := QuatR.dot a b
  let om := Real.arccos d
  if Real.sin om = 0 then a
  else
    QuatR.add (QuatR.smul (Real.sin ((1 - t) * om) / Real.sin om) a)
      (QuatR.smul (Real.sin (t * om) / Real.sin om) b)

/-- Two quaternions represent the same orientation when they are equal up to
global sign. -/
def sameOrientation (a b : QuatR) : Prop :=
  a = b ∨ a = QuatR.neg b

/-- The cubic-segment evaluation as the spec words it (§4.2): reconstruct the
off-curve control points by additive blending,
`p1 = blend([(duration/3, d0, additive=true), (1, p0, additive=true)])` and
`p2 = blend([(-duration/3, d3, additive=true), (1, p3, additive=true)])`,
then evaluate by the three-level de Casteljau chain of `interpolate` calls. -/
def spec_cubic_value {T : Type} (ops : AnimatableOps T) (p0 d0 d3 p3 : T)
    (t duration : ℚ) : T :=
  let p1 := ops.blend [⟨duration / 3, d0, true⟩, ⟨1, p0, true⟩]
  let p2 := ops.blend [⟨-duration / 3, d3, true⟩, ⟨1, p3, true⟩]
  let p0p1 := ops.interpolate p0 p1 t
  let p1p2 := ops.interpolate p1 p2 t
  let p2p3 := ops.interpolate p2 p3 t
  let p0p1p2 := ops.interpolate p0p1 p1p2 t
  let p1p2p3 := ops.interpolate p1p2 p2p3 t
  ops.interpolate p0p1p2 p1p2p3 t

/-- Modelled from the spec (§4.6): run §4.3's tweening algorithm on the
single morph target `i`, with `f32` as the animatable type and the custom
keyframe-lookup adapter
`keyframe_index ↦ flat_array[keyframe_index * target_count + target_index]`
in place of a direct vector index. -/
def spec_morph_target_tweened (self : MorphWeightsKeyframes) (i : ℕ)
    (interpolation : Interpolation) (step_start : ℕ)
    (time weight duration : ℚ) (morph_weight : ℚ) :
    Except AnimationEvaluationError Unit × ℚ :=
  interpolate_keyframes qOps
    (fun keyframe_index =>
      self.weights.get? (keyframe_index * self.morph_target_count + i))
    interpolation step_start time weight duration morph_weight

/-! ## Claims -/

/-- Cauchy–Schwarz for the four-dimensional dot product of unit quaternions. -/
lemma quat_dot_sq_le_one (a b : QuatR) (ha : QuatR.normSq a = 1)
    (hb : QuatR.normSq b = 1) : (QuatR.dot a b) ^ 2 ≤ 1 := by
  obtain ⟨ax, ay, az, aw⟩ := a
  obtain ⟨bx, by2, bz, bw⟩ := b
  simp only [QuatR.normSq, QuatR.dot] at ha hb ⊢
  nlinarith [sq_nonneg (ax * by2 - ay * bx), sq_nonneg (ax * bz - az * bx),
    sq_nonneg (ax * bw - aw * bx), sq_nonneg (ay * bz - az * by2),
    sq_nonneg (ay * bw - aw * by2), sq_nonneg (az * bw - aw * bz)]

/-- A real number whose square is bounded by zero is zero. -/
lemma sq_le_zero_imp_eq_zero (u : ℝ) (h : u ^ 2 ≤ 0) : u = 0 :=
  (pow_eq_zero_iff (by norm_num)).mp (le_antisymm h (sq_nonneg u))

/-- Equality case of Cauchy–Schwarz: unit quaternions with dot product 1 are
equal. -/
lemma quat_eq_of_dot_one (a b : QuatR) (ha : QuatR.normSq a = 1)
    (hb : QuatR.normSq b = 1) (hd : QuatR.dot a b = 1) : a = b := by
  obtain ⟨ax, ay, az, aw⟩ := a
  obtain ⟨bx, by2, bz, bw⟩ := b
  simp only [QuatR.normSq, QuatR.dot] at ha hb hd
  have h0 : (ax - bx) ^ 2 + (ay - by2) ^ 2 + (az - bz) ^ 2 + (aw - bw) ^ 2 = 0 := by
    linear_combination ha + hb - 2 * hd
  have hx := sq_le_zero_imp_eq_zero (ax - bx)
    (by linarith [sq_nonneg (ay - by2), sq_nonneg (az - bz), sq_nonneg (aw - bw)])
  have hy := sq_le_zero_imp_eq_zero (ay - by2)
    (by linarith [sq_nonneg (ax - bx), sq_nonneg (az - bz), sq_nonneg (aw - bw)])
  have hz := sq_le_zero_imp_eq_zero (az - bz)
    (by linarith [sq_nonneg (ax - bx), sq_nonneg (ay - by2), sq_nonneg (aw - bw)])
  have hw := sq_le_zero_imp_eq_zero (aw - bw)
    (by linarith [sq_nonneg (ax - bx), sq_nonneg (ay - by2), sq_nonneg (az - bz)])
  simp only [QuatR.mk.injEq]
  exact ⟨by linarith, by linarith, by linarith, by linarith⟩

/-- Equality case of Cauchy–Schwarz: unit quaternions with dot product -1 are
negatives of each other. -/
lemma quat_neg_of_dot_neg_one (a b : QuatR) (ha : QuatR.normSq a = 1)
    (hb : QuatR.normSq b = 1) (hd : QuatR.dot a b = -1) : a = QuatR.neg b := by
  obtain ⟨ax, ay, az, aw⟩ := a
  obtain ⟨bx, by2, bz, bw⟩ := b
  simp only [QuatR.normSq, QuatR.dot] at ha hb hd
  have h0 : (ax + bx) ^ 2 + (ay + by2) ^ 2 + (az + bz) ^ 2 + (aw + bw) ^ 2 = 0 := by
    linear_combination ha + hb + 2 * hd
  have hx := sq_le_zero_imp_eq_zero (ax + bx)
    (by linarith [sq_nonneg (ay + by2), sq_nonneg (az + bz), sq_nonneg (aw + bw)])
  have hy := sq_le_zero_imp_eq_zero (ay + by2)
    (by linarith [sq_nonneg (ax + bx), sq_nonneg (az + bz), sq_nonneg (aw + bw)])
  have hz := sq_le_zero_imp_eq_zero (az + bz)
    (by linarith [sq_nonneg (ax + bx), sq_nonneg (ay + by2), sq_nonneg (aw + bw)])
  have hw := sq_le_zero_imp_eq_zero (aw + bw)
    (by linarith [sq_nonneg (ax + bx), sq_nonneg (ay + by2), sq_nonneg (az + bz)])
  simp only [QuatR.neg, QuatR.mk.injEq]
  exact ⟨by linarith, by linarith, by linarith, by linarith⟩

/-- Slerp at parameter 0 is the first endpoint, exactly. -/
lemma quat_slerp_zero (a b : QuatR) : QuatR.slerp a b 0 = a := by
  simp only [QuatR.slerp]
  split_ifs with h
  · rfl
  · rw [sub_zero, one_mul, div_self h, zero_mul, Real.sin_zero, zero_div]
    cases a; cases b
    simp [QuatR.smul, QuatR.add]

/-- Slerp at parameter 1 is the second endpoint, in the non-degenerate
branch. -/
lemma quat_slerp_one (a b : QuatR)
    (h : Real.sin (Real.arccos (QuatR.dot a b)) ≠ 0) :
    QuatR.slerp a b 1 = b := by
  simp only [QuatR.slerp]
  rw [if_neg h, sub_self, zero_mul, Real.sin_zero, zero_div, one_mul, div_self h]
  cases a; cases b
  simp [QuatR.smul, QuatR.add]

/-- In the degenerate branch (`sin Ω = 0`), unit endpoints agree up to sign. -/
lemma quat_same_orientation_of_sin_arccos_eq_zero (a b : QuatR)
    (ha : QuatR.normSq a = 1) (hb : QuatR.normSq b = 1)
    (h : Real.sin (Real.arccos (QuatR.dot a b)) = 0) : sameOrientation a b := by
  have hd2 : (QuatR.dot a b) ^ 2 ≤ 1 := quat_dot_sq_le_one a b ha hb
  rw [Real.sin_arccos] at h
  have h1 : 1 - (QuatR.dot a b) ^ 2 ≤ 0 := Real.sqrt_eq_zero'.mp h
  have hsq : (QuatR.dot a b) ^ 2 = 1 := le_antisymm hd2 (by linarith)
  have hfact : (QuatR.dot a b - 1) * (QuatR.dot a b + 1) = 0 := by
    linear_combination hsq
  rcases mul_eq_zero.mp hfact with hone | hneg
  · exact Or.inl (quat_eq_of_dot_one a b ha hb (by linarith))
  · exact Or.inr (quat_neg_of_dot_neg_one a b ha hb (by linarith))

/-- C1: the claim states that `apply_single_keyframe` on a generic property
track with one keyframe sets the destination property to
`interpolate(current, keyframes[0], weight)` (so with weight 1 the property
becomes `keyframes[0]`), with the same write-through semantics as the
registered `interpolate_first_keyframe` dispatch function.  The code violates
this: at keyframes.rs line 486 the interpolated value is computed and
dropped, so with property `0`, keyframes `[10]` and weight `1` the call
returns `Ok` but leaves the property at `0`, while `interpolate(0, 10, 1) =
10` and the registered dispatch function does write `10`. -/
theorem c1_apply_single_keyframe_does_not_write :
    apply_single_keyframe_property qOps (fun x : ℚ => some x) [10] 1 (some 0)
      = (.ok (), some 0) ∧
    qlerp 0 10 1 = 10 ∧
    reflect_interpolate_first_keyframe_f32 (.float 0) (.floatList [10]) 1
      = (.ok (), .float 10) := by
  refine ⟨rfl, by norm_num [qlerp], ?_⟩
  simp only [reflect_interpolate_first_keyframe_f32, downcast_float_list,
    List.head?, qlerp]
  norm_num

/-- C2: the claim states that `apply_single_keyframe` on any empty-keyframe
track variant returns `KeyframeNotPresent` and never panics or silently
no-ops.  The generic property track does return `KeyframeNotPresent` (third
and fourth conjuncts), but the morph-weight variants index the keyframe array
without a bounds check (keyframes.rs line 591, animatable.rs line 546): with
an empty keyframe array and a destination holding one morph weight, both
panic (modelled as `none`) instead of returning the error. -/
theorem c2_empty_track_morph_panics :
    apply_single_keyframe_morph ⟨1, []⟩ 1 (some [1/2]) = none ∧
    reflect_morph_interpolate_first_keyframe (.morphWeights [1/2])
      (.floatList []) 1 = none ∧
    apply_single_keyframe_property qOps (fun x : ℚ => some x) ([] : List ℚ) 1
      (some (1/2 : ℚ)) = (.error .keyframeNotPresent, some (1/2 : ℚ)) ∧
    reflect_interpolate_first_keyframe_f32 (.float (1/2)) (.floatList []) 1
      = (.error .keyframeNotPresent, .float (1/2)) := by
  exact ⟨rfl, rfl, rfl, rfl⟩

/-- C3 counterexample: the claim states that
`interpolate_with_cubic_bezier(p0, 0, 0, p3, t, duration)` equals the
straight-line `interpolate(p0, p3, t)` for every `t` in `[0, 1]`.  At
`p0 = 0`, `p3 = 1`, `t = 1/4`, `duration = 1` the cubic evaluates to `5/32`
while the straight line gives `1/4`. -/
theorem c3_zero_derivative_cubic_not_linear :
    interpolate_with_cubic_bezier qOps 0 0 0 1 (1/4) 1 = 5/32 ∧
    qlerp 0 1 (1/4) = 1/4 ∧
    interpolate_with_cubic_bezier qOps 0 0 0 1 (1/4) 1 ≠ qlerp 0 1 (1/4) := by
  norm_num [interpolate_with_cubic_bezier, qOps, qblend, qlerp, List.foldl]

/-- C3 (amended): with zero start and end derivatives,
`interpolate_with_cubic_bezier(p0, 0, 0, p3, t, duration)` equals
`interpolate(p0, p3, 3t² - 2t³)` — the cubic with both control points at the
endpoints reparameterizes the straight line by the smoothstep weight — and
therefore coincides with the straight-line `interpolate(p0, p3, t)` exactly
at `t = 0`, `t = 1/2` and `t = 1`, in particular exactly at the boundaries. -/
theorem c3_zero_derivative_cubic_is_smoothstep (p0 p3 t duration : ℚ) :
    interpolate_with_cubic_bezier qOps p0 0 0 p3 t duration
      = qlerp p0 p3 (3 * t^2 - 2 * t^3) ∧
    interpolate_with_cubic_bezier qOps p0 0 0 p3 0 duration = p0 ∧
    interpolate_with_cubic_bezier qOps p0 0 0 p3 1 duration = p3 ∧
    interpolate_with_cubic_bezier qOps p0 0 0 p3 (1/2) duration
      = qlerp p0 p3 (1/2) := by
  refine ⟨?_, ?_, ?_, ?_⟩ <;>
    · simp only [interpolate_with_cubic_bezier, qOps, qblend, qlerp,
        List.foldl, if_pos]
      ring

/-- C4 counterexample: the claim states that `keyframe_count()` returns the
raw length divided by 3 for cubic-spline tracks.  A generic property track
whose 6 stored values author 2 cubic keyframes (one in-tangent/value/
out-tangent triplet per keyframe) reports 6, not 6/3 = 2:
`keyframe_count` for `AnimatablePropertyKeyframes` is the raw `self.len()`
regardless of interpolation mode. -/
theorem c4_generic_count_is_raw_length :
    keyframe_count_property ([0, 0, 0, 0, 0, 0] : List ℚ) = 6 ∧
    (6 : ℕ) / 3 = 2 ∧
    keyframe_count_property ([0, 0, 0, 0, 0, 0] : List ℚ) ≠ (6 : ℕ) / 3 := by
  exact ⟨rfl, rfl, by decide⟩

/-- C4 (amended): `keyframe_count()` divides the raw array length by the
morph-target count for flattened morph-weight tracks (so a track authored
with `n` keyframes over `tc` targets reports `n`), but for generic property
tracks it returns the raw stored array length, which for cubic-spline tracks
is three times the authored keyframe count. -/
theorem c4_keyframe_count_amended :
    (∀ (self : MorphWeightsKeyframes) (n : ℕ),
      self.morph_target_count ≠ 0 →
      self.weights.length = n * self.morph_target_count →
      keyframe_count_morph self = n) ∧
    (∀ (T : Type) (keyframes : List T) (n : ℕ),
      keyframes.length = 3 * n →
      keyframe_count_property keyframes = 3 * n) := by
  constructor
  · intro self n htc hlen
    rw [keyframe_count_morph, hlen, Nat.mul_div_cancel _ (Nat.pos_of_ne_zero htc)]
  · intro T keyframes n hlen
    rw [keyframe_count_property, hlen]

/-- Witness for the amended C4 at a concrete input: a morph track with 3
targets and 9 flat values reports 3 keyframes; a generic cubic track with 2
authored keyframes stores 6 values and reports 6. -/
theorem c4_keyframe_count_amended_witness :
    keyframe_count_morph ⟨3, [0, 0, 0, 0, 0, 0, 0, 0, 0]⟩ = 3 ∧
    keyframe_count_property ([0, 0, 0, 0, 0, 0] : List ℚ) = 3 * 2 := by
  exact ⟨c4_keyframe_count_amended.1 ⟨3, [0, 0, 0, 0, 0, 0, 0, 0, 0]⟩ 3
      (by decide) (by decide),
    c4_keyframe_count_amended.2 ℚ [0, 0, 0, 0, 0, 0] 2 (by decide)⟩

/-- C5: for every animatable type, cubic-spline evaluation fetches the four
operands at flat indices `step_start*3+1 .. step_start*3+4`, reconstructs the
control points as `p1 = blend([(duration/3, d0, additive), (1, p0,
additive)])` and `p2 = blend([(-duration/3, d3, additive), (1, p3,
additive)])`, evaluates the three-level de Casteljau chain of `interpolate`
calls at `t`, and blends the result into the destination with the given
weight. -/
theorem c5_cubic_spline_follows_spec {T : Type} (ops : AnimatableOps T)
    (get : ℕ → Option T) (step_start : ℕ) (time weight duration : ℚ)
    (dest p0 d0 d3 p3 : T)
    (h1 : get (step_start * 3 + 1) = some p0)
    (h2 : get (step_start * 3 + 2) = some d0)
    (h3 : get (step_start * 3 + 3) = some d3)
    (h4 : get (step_start * 3 + 4) = some p3) :
    interpolate_keyframes ops get .CubicSpline step_start time weight duration
      dest
      = (.ok (), ops.interpolate dest
          (spec_cubic_value ops p0 d0 d3 p3 time duration) weight) := by
  have hneg : duration / -3 = -duration / 3 := by ring
  simp only [interpolate_keyframes, h1, h2, h3, h4,
    interpolate_with_cubic_bezier, spec_cubic_value, hneg]

/-- Witness for C5 at a concrete input: keyframe list `[0, 1, 2, 3, 4]`,
`step_start = 0`, so the operands are fetched at indices 1, 2, 3, 4. -/
theorem c5_cubic_spline_follows_spec_witness :
    (([0, 1, 2, 3, 4] : List ℚ).get? (0 * 3 + 1) = some 1 ∧
      ([0, 1, 2, 3, 4] : List ℚ).get? (0 * 3 + 2) = some 2 ∧
      ([0, 1, 2, 3, 4] : List ℚ).get? (0 * 3 + 3) = some 3 ∧
      ([0, 1, 2, 3, 4] : List ℚ).get? (0 * 3 + 4) = some 4) ∧
    interpolate_keyframes qOps (fun i => ([0, 1, 2, 3, 4] : List ℚ).get? i)
      .CubicSpline 0 (1/3) 1 2 7
      = (.ok (), qOps.interpolate 7 (spec_cubic_value qOps 1 2 3 4 (1/3) 2) 1) := by
  exact ⟨⟨rfl, rfl, rfl, rfl⟩,
    c5_cubic_spline_follows_spec qOps (fun i => ([0, 1, 2, 3, 4] : List ℚ).get? i)
      0 (1/3) 1 2 7 1 2 3 4 rfl rfl rfl rfl⟩

/-- C6: for every animatable type, when the keyframe at `step_start` is
present, tweened application with `Interpolation::Step` computes
`keyframes[step_start]` independently of the time argument (for any two times
in `[0, 1)`), and writes `interpolate(current_destination_value,
keyframes[step_start], weight)` into the destination. -/
theorem c6_step_mode_ignores_time {T : Type} (ops : AnimatableOps T)
    (get : ℕ → Option T) (step_start : ℕ) (v : T)
    (t1 t2 weight duration : ℚ) (dest : T)
    (hv : get step_start = some v)
    (h1l : 0 ≤ t1) (h1r : t1 < 1) (h2l : 0 ≤ t2) (h2r : t2 < 1) :
    interpolate_keyframes ops get .Step step_start t1 weight duration dest
      = (.ok (), ops.interpolate dest v weight) ∧
    interpolate_keyframes ops get .Step step_start t2 weight duration dest
      = interpolate_keyframes ops get .Step step_start t1 weight duration dest := by
  simp [interpolate_keyframes, hv]

/-- Witness for C6 at a concrete input: keyframes `[3, 4]`, `step_start = 0`,
times `1/4` and `3/4`, weight 1, destination 9. -/
theorem c6_step_mode_ignores_time_witness :
    (([3, 4] : List ℚ).get? 0 = some 3 ∧ (0:ℚ) ≤ 1/4 ∧ (1/4:ℚ) < 1 ∧
      (0:ℚ) ≤ 3/4 ∧ (3/4:ℚ) < 1) ∧
    interpolate_keyframes qOps (fun i => ([3, 4] : List ℚ).get? i) .Step 0
      (1/4) 1 5 9 = (.ok (), qOps.interpolate 9 3 1) ∧
    interpolate_keyframes qOps (fun i => ([3, 4] : List ℚ).get? i) .Step 0
      (3/4) 1 5 9
      = interpolate_keyframes qOps (fun i => ([3, 4] : List ℚ).get? i) .Step 0
          (1/4) 1 5 9 := by
  refine ⟨⟨rfl, by norm_num, by norm_num, by norm_num, by norm_num⟩, ?_⟩
  exact c6_step_mode_ignores_time qOps (fun i => ([3, 4] : List ℚ).get? i) 0 3
    (1/4) (3/4) 1 5 9 rfl (by norm_num) (by norm_num) (by norm_num) (by norm_num)

/-- C7: for every non-rotational animatable scalar, vector and color type
(`f32`/`f64` modelled by `qlerp`, `Vec2`/`DVec2`, `Vec3`/`Vec3A`/`DVec3`,
`Vec4`/`DVec4`, and the four-channel color types), `interpolate(a, b, 0) = a`
and `interpolate(a, b, 1) = b` exactly; for `Quat` (slerp) the same holds up
to representing the same orientation, for unit quaternions. -/
theorem c7_interpolate_boundary_identities :
    (∀ a b : ℚ, qlerp a b 0 = a ∧ qlerp a b 1 = b) ∧
    (∀ a b : Vec2Q, Vec2Q.interpolate a b 0 = a ∧ Vec2Q.interpolate a b 1 = b) ∧
    (∀ a b : Vec3Q, Vec3Q.interpolate a b 0 = a ∧ Vec3Q.interpolate a b 1 = b) ∧
    (∀ a b : Vec4Q, Vec4Q.interpolate a b 0 = a ∧ Vec4Q.interpolate a b 1 = b) ∧
    (∀ a b : ColorQ, ColorQ.interpolate a b 0 = a ∧ ColorQ.interpolate a b 1 = b) ∧
    (∀ a b : QuatR, QuatR.normSq a = 1 → QuatR.normSq b = 1 →
      sameOrientation (QuatR.slerp a b 0) a ∧
      sameOrientation (QuatR.slerp a b 1) b) := by
  refine ⟨fun a b => ⟨by simp [qlerp], by simp [qlerp]⟩,
    fun a b => ⟨?_, ?_⟩, fun a b => ⟨?_, ?_⟩, fun a b => ⟨?_, ?_⟩,
    fun a b => ⟨?_, ?_⟩, fun a b ha hb => ⟨?_, ?_⟩⟩
  · cases a; cases b; simp [Vec2Q.interpolate]
  · cases a; cases b; simp [Vec2Q.interpolate]
  · cases a; cases b; simp [Vec3Q.interpolate]
  · cases a; cases b; simp [Vec3Q.interpolate]
  · cases a; cases b; simp [Vec4Q.interpolate]
  · cases a; cases b; simp [Vec4Q.interpolate]
  · cases a; cases b; simp [ColorQ.interpolate]
  · cases a; cases b; simp [ColorQ.interpolate]
  · rw [quat_slerp_zero]
    exact Or.inl rfl
  · by_cases h : Real.sin (Real.arccos (QuatR.dot a b)) = 0
    · have hsame := quat_same_orientation_of_sin_arccos_eq_zero a b ha hb h
      have hval : QuatR.slerp a b 1 = a := by
        simp only [QuatR.slerp]
        rw [if_pos h]
      rw [hval]
      exact hsame
    · rw [quat_slerp_one a b h]
      exact Or.inl rfl

/-- Witness for C7's quaternion clause at a concrete input: the identity
quaternion is a unit quaternion, and slerp between it and itself returns the
same orientation at both parameter boundaries. -/
theorem c7_interpolate_boundary_identities_witness :
    QuatR.normSq ⟨0, 0, 0, 1⟩ = 1 ∧
    (sameOrientation (QuatR.slerp ⟨0, 0, 0, 1⟩ ⟨0, 0, 0, 1⟩ 0) ⟨0, 0, 0, 1⟩ ∧
      sameOrientation (QuatR.slerp ⟨0, 0, 0, 1⟩ ⟨0, 0, 0, 1⟩ 1) ⟨0, 0, 0, 1⟩) := by
  have hunit : QuatR.normSq ⟨0, 0, 0, 1⟩ = 1 := by
    norm_num [QuatR.normSq, QuatR.dot]
  exact ⟨hunit,
    c7_interpolate_boundary_identities.2.2.2.2.2 ⟨0, 0, 0, 1⟩ ⟨0, 0, 0, 1⟩
      hunit hunit⟩

/-- Success case of the morph-weight tweening loop: the output has the same
length as the destination, and each output entry is the result of running the
shared tweening core on that target's weight with that target's flat-array
lookup. -/
lemma morph_tweened_loop_ok (self : MorphWeightsKeyframes)
    (interpolation : Interpolation) (step_start : ℕ)
    (time weight duration : ℚ) :
    ∀ (dest : List ℚ) (i : ℕ) (dest' : List ℚ),
      morph_tweened_loop self interpolation step_start time weight duration i
        dest = (.ok (), dest') →
      dest'.length = dest.length ∧
      ∀ j (hj : j < dest.length), ∃ v,
        interpolate_keyframes qOps (get_morph_weight_keyframe self (i + j))
          interpolation step_start time weight duration (dest.get ⟨j, hj⟩)
          = (.ok (), v) ∧
        dest'.get? j = some v := by
  intro dest
  induction dest with
  | nil =>
    intro i dest' h
    simp only [morph_tweened_loop, Prod.mk.injEq] at h
    obtain ⟨-, h2⟩ := h
    subst h2
    exact ⟨rfl, fun j hj => absurd hj (by simp)⟩
  | cons mw rest ih =>
    intro i dest' h
    simp only [morph_tweened_loop] at h
    rcases hik : interpolate_keyframes qOps (get_morph_weight_keyframe self i)
        interpolation step_start time weight duration mw with ⟨r0, mw'⟩
    rw [hik] at h
    cases r0 with
    | error e => simp at h
    | ok u =>
      cases u
      rcases hloop : morph_tweened_loop self interpolation step_start time
          weight duration (i + 1) rest with ⟨r1, rest'⟩
      rw [hloop] at h
      simp only [Prod.mk.injEq] at h
      obtain ⟨hr1, hdest⟩ := h
      subst hdest
      subst hr1
      obtain ⟨hlen, hall⟩ := ih (i + 1) rest' hloop
      refine ⟨by simp [hlen], ?_⟩
      intro j hj
      cases j with
      | zero => exact ⟨mw', hik, rfl⟩
      | succ j' =>
        have hj' : j' < rest.length := Nat.succ_lt_succ_iff.mp (by simpa using hj)
        obtain ⟨v, hv1, hv2⟩ := hall j' hj'
        refine ⟨v, ?_, by simpa using hv2⟩
        have hidx : i + (j' + 1) = (i + 1) + j' := by omega
        rw [hidx]
        exact hv1

/-- C8: for every morph-weight track whose flat array length is a multiple of
the target count and every destination holding exactly `target_count`
weights, a successful `apply_tweened_keyframes` produces, for each target
index `i`, exactly the value obtained by running the generic `f32` tweening
algorithm independently on target `i` with the flat-array lookup
`keyframe_index ↦ flat[keyframe_index * target_count + i]` (first conjunct:
at `target_count = 3`, `keyframe_index = 2`, `target_index = 1` that lookup
reads flat index 7). -/
theorem c8_morph_tweened_matches_per_target (self : MorphWeightsKeyframes)
    (interpolation : Interpolation) (step_start : ℕ)
    (time weight duration : ℚ) (dest dest' : List ℚ)
    (hmul : self.weights.length % self.morph_target_count = 0)
    (hlen : dest.length = self.morph_target_count)
    (hok : apply_tweened_keyframes_morph self interpolation step_start time
      weight duration (some dest) = (.ok (), some dest')) :
    (∀ ws : List ℚ, get_morph_weight_keyframe ⟨3, ws⟩ 1 2 = ws.get? 7) ∧
    dest'.length = dest.length ∧
    ∀ i (hi : i < dest.length), ∃ v,
      spec_morph_target_tweened self i interpolation step_start time weight
        duration (dest.get ⟨i, hi⟩) = (.ok (), v) ∧
      dest'.get? i = some v := by
  refine ⟨fun ws => rfl, ?_⟩
  rcases hloop : morph_tweened_loop self interpolation step_start time weight
      duration 0 dest with ⟨r0, d0⟩
  rw [apply_tweened_keyframes_morph, hloop] at hok
  simp only [Prod.mk.injEq, Option.some.injEq] at hok
  obtain ⟨hr0, hd0⟩ := hok
  subst hr0
  subst hd0
  obtain ⟨hl, hall⟩ :=
    morph_tweened_loop_ok self interpolation step_start time weight duration
      dest 0 d0 hloop
  refine ⟨hl, ?_⟩
  intro i hi
  obtain ⟨v, hv1, hv2⟩ := hall i hi
  rw [zero_add] at hv1
  exact ⟨v, hv1, hv2⟩

/-- Witness for C8 at a concrete input: a 3-target track with 3 keyframes
(flat array of 9 values), destination `[0, 0, 0]`, linear interpolation
between keyframes 0 and 1 at time 1/2 with weight 1. -/
theorem c8_morph_tweened_matches_per_target_witness :
    (([0, 10, 20, 1, 11, 21, 2, 12, 22] : List ℚ).length % 3 = 0 ∧
      ([0, 0, 0] : List ℚ).length = 3 ∧
      apply_tweened_keyframes_morph ⟨3, [0, 10, 20, 1, 11, 21, 2, 12, 22]⟩
        .Linear 0 (1/2) 1 1 (some [0, 0, 0])
        = (.ok (), some [1/2, 21/2, 41/2])) ∧
    (∀ ws : List ℚ, get_morph_weight_keyframe ⟨3, ws⟩ 1 2 = ws.get? 7) ∧
    ([1/2, 21/2, 41/2] : List ℚ).length = ([0, 0, 0] : List ℚ).length ∧
    (∀ i (hi : i < ([0, 0, 0] : List ℚ).length), ∃ v,
      spec_morph_target_tweened ⟨3, [0, 10, 20, 1, 11, 21, 2, 12, 22]⟩ i
        .Linear 0 (1/2) 1 1 (([0, 0, 0] : List ℚ).get ⟨i, hi⟩) = (.ok (), v) ∧
      ([1/2, 21/2, 41/2] : List ℚ).get? i = some v) := by
  have happly : apply_tweened_keyframes_morph
      ⟨3, [0, 10, 20, 1, 11, 21, 2, 12, 22]⟩ .Linear 0 (1/2) 1 1
      (some [0, 0, 0]) = (.ok (), some [1/2, 21/2, 41/2]) := by
    simp only [apply_tweened_keyframes_morph, morph_tweened_loop,
      interpolate_keyframes, get_morph_weight_keyframe, qOps, qlerp, List.get?]
    norm_num
  exact ⟨⟨rfl, rfl, happly⟩,
    c8_morph_tweened_matches_per_target ⟨3, [0, 10, 20, 1, 11, 21, 2, 12, 22]⟩
      .Linear 0 (1/2) 1 1 [0, 0, 0] [1/2, 21/2, 41/2] rfl rfl happly⟩

/-- The `max_by` fold keeps an element of the input (or the accumulator)
whose weight dominates the accumulator and every list element. -/
lemma foldl_max_by_weight_spec (xs : List (BlendInput Bool)) :
    ∀ acc : BlendInput Bool,
      (xs.foldl max_by_weight_step acc = acc ∨
        xs.foldl max_by_weight_step acc ∈ xs) ∧
      acc.weight ≤ (xs.foldl max_by_weight_step acc).weight ∧
      ∀ j ∈ xs, j.weight ≤ (xs.foldl max_by_weight_step acc).weight := by
  induction xs with
  | nil => intro acc; simp
  | cons x rest ih =>
    intro acc
    rw [List.foldl_cons]
    by_cases h : x.weight < acc.weight
    · rw [show max_by_weight_step acc x = acc from if_pos h]
      obtain ⟨hmem, hacc, hall⟩ := ih acc
      refine ⟨?_, hacc, ?_⟩
      · rcases hmem with h1 | h1
        · exact Or.inl h1
        · exact Or.inr (List.mem_cons_of_mem x h1)
      · intro j hj
        rcases List.mem_cons.mp hj with hjx | hjr
        · subst hjx
          exact le_trans (le_of_lt h) hacc
        · exact hall j hjr
    · rw [show max_by_weight_step acc x = x from if_neg h]
      obtain ⟨hmem, hacc, hall⟩ := ih x
      refine ⟨?_, le_trans (not_lt.mp h) hacc, ?_⟩
      · rcases hmem with h1 | h1
        · rw [h1]
          exact Or.inr (List.mem_cons_self x rest)
        · exact Or.inr (List.mem_cons_of_mem x h1)
      · intro j hj
        rcases List.mem_cons.mp hj with hjx | hjr
        · subst hjx
          exact hacc
        · exact hall j hjr

/-- C9: `bool::blend` returns the value carried by an input whose weight is
greatest (the last such input under ties, per `Iterator::max_by`), returns
`false` for an empty input sequence, and in particular the non-additive blend
of `[(0.3, false), (0.9, true)]` selects `true`. -/
theorem c9_bool_blend_selects_max_weight :
    bool_blend [] = false ∧
    (∀ inputs : List (BlendInput Bool), inputs ≠ [] →
      ∃ winner ∈ inputs, bool_blend inputs = winner.value ∧
        ∀ j ∈ inputs, j.weight ≤ winner.weight) ∧
    bool_blend [⟨3/10, false, false⟩, ⟨9/10, true, false⟩] = true := by
  refine ⟨rfl, ?_, ?_⟩
  · intro inputs hne
    match inputs with
    | x :: rest =>
      obtain ⟨hmem, -, hall⟩ := foldl_max_by_weight_spec rest x
      refine ⟨rest.foldl max_by_weight_step x, ?_, rfl, ?_⟩
      · rcases hmem with h1 | h1
        · rw [h1]
          exact List.mem_cons_self x rest
        · exact List.mem_cons_of_mem x h1
      · intro j hj
        rcases List.mem_cons.mp hj with hjx | hjr
        · subst hjx
          exact (foldl_max_by_weight_spec rest j).2.1
        · exact hall j hjr
  · have hlt : ¬ ((9:ℚ)/10 < 3/10) := by norm_num
    simp [bool_blend, max_by_weight, max_by_weight_step, hlt]

/-- Witness for C9's universally quantified clause at a concrete input: the
two-element list of the claim's scenario is nonempty and its max-weight
winner carries `true` with weight 9/10 dominating both inputs. -/
theorem c9_bool_blend_selects_max_weight_witness :
    ([(⟨3/10, false, false⟩ : BlendInput Bool), ⟨9/10, true, false⟩] ≠ []) ∧
    (∃ winner ∈ [(⟨3/10, false, false⟩ : BlendInput Bool), ⟨9/10, true, false⟩],
      bool_blend [⟨3/10, false, false⟩, ⟨9/10, true, false⟩] = winner.value ∧
      ∀ j ∈ [(⟨3/10, false, false⟩ : BlendInput Bool), ⟨9/10, true, false⟩],
        j.weight ≤ winner.weight) := by
  refine ⟨by simp, ?_⟩
  exact c9_bool_blend_selects_max_weight.2.1
    [⟨3/10, false, false⟩, ⟨9/10, true, false⟩] (by simp)

/-- Every failure path of the shared tweening core leaves the destination
exactly as it was: all checks precede the single write. -/
lemma interpolate_keyframes_error_unchanged {T : Type} (ops : AnimatableOps T)
    (get : ℕ → Option T) (interpolation : Interpolation) (step_start : ℕ)
    (time weight duration : ℚ) (dest : T) (e : AnimationEvaluationError)
    (h : (interpolate_keyframes ops get interpolation step_start time weight
      duration dest).1 = .error e) :
    (interpolate_keyframes ops get interpolation step_start time weight
      duration dest).2 = dest := by
  revert h
  cases interpolation with
  | Step =>
    cases hg : get step_start <;> simp [interpolate_keyframes, hg]
  | Linear =>
    cases hg1 : get step_start <;> cases hg2 : get (step_start + 1) <;>
      simp [interpolate_keyframes, hg1, hg2]
  | CubicSpline =>
    cases hg1 : get (step_start * 3 + 1) <;>
      cases hg2 : get (step_start * 3 + 2) <;>
      cases hg3 : get (step_start * 3 + 3) <;>
      cases hg4 : get (step_start * 3 + 4) <;>
      simp [interpolate_keyframes, hg1, hg2, hg3, hg4]

/-- C10: whenever the shared tweening core or a registered dispatch function
(`interpolate_first_keyframe` / `interpolate_keyframes`, shown at the `f32`
instantiation of the generic `FromType` implementation) returns an error, the
destination value is exactly what it was before the call: every write happens
only after all failure checks have passed. -/
theorem c10_error_leaves_destination_unchanged :
    (∀ (T : Type) (ops : AnimatableOps T) (get : ℕ → Option T)
        (interpolation : Interpolation) (step_start : ℕ)
        (time weight duration : ℚ) (dest : T) (e : AnimationEvaluationError),
      (interpolate_keyframes ops get interpolation step_start time weight
        duration dest).1 = .error e →
      (interpolate_keyframes ops get interpolation step_start time weight
        duration dest).2 = dest) ∧
    (∀ (dest keyframes : ReflectValue) (weight : ℚ)
        (e : AnimationEvaluationError),
      (reflect_interpolate_first_keyframe_f32 dest keyframes weight).1
        = .error e →
      (reflect_interpolate_first_keyframe_f32 dest keyframes weight).2 = dest) ∧
    (∀ (dest keyframes : ReflectValue) (interpolation : Interpolation)
        (step_start : ℕ) (time weight duration : ℚ)
        (e : AnimationEvaluationError),
      (reflect_interpolate_keyframes_f32 dest keyframes interpolation
        step_start time weight duration).1 = .error e →
      (reflect_interpolate_keyframes_f32 dest keyframes interpolation
        step_start time weight duration).2 = dest) := by
  refine ⟨fun T ops get interpolation step_start time weight duration dest e =>
    interpolate_keyframes_error_unchanged ops get interpolation step_start
      time weight duration dest e, ?_, ?_⟩
  · intro dest keyframes weight e h
    rcases keyframes with x | xs | b | ws
    · rfl
    · rcases xs with - | ⟨v, rest⟩
      · rfl
      · rcases dest with d | dl | db | dw
        · exact Except.noConfusion h
        · rfl
        · rfl
        · rfl
    · rfl
    · rfl
  · intro dest keyframes interpolation step_start time weight duration e
    rcases keyframes with x | xs | b | ws
    · intro h; rfl
    · rcases dest with d | dl | db | dw
      · rcases hik : interpolate_keyframes qOps (fun i => xs.get? i)
            interpolation step_start time weight duration d with ⟨r0, d'⟩
        simp only [reflect_interpolate_keyframes_f32, downcast_float_list, hik]
        intro h
        cases r0 with
        | ok u => simp at h
        | error e0 =>
          have hun : d' = d := by
            have h2 := interpolate_keyframes_error_unchanged qOps
              (fun i => xs.get? i) interpolation step_start time weight
              duration d e0 (by rw [hik])
            rw [hik] at h2
            exact h2
          rw [hun]
      · intro h; rfl
      · intro h; rfl
      · intro h; rfl
    · intro h; rfl
    · intro h; rfl

/-- Witness for C10 at concrete error-producing inputs: an empty lookup in
the core, a malformed keyframe list in the first-keyframe dispatch, and a
non-float destination in the tweening dispatch; the destinations are
returned unchanged. -/
theorem c10_error_leaves_destination_unchanged_witness :
    (interpolate_keyframes qOps (fun _ => none) .Step 0 0 1 1 (5:ℚ)).1
      = .error .keyframeNotPresent ∧
    (interpolate_keyframes qOps (fun _ => none) .Step 0 0 1 1 (5:ℚ)).2 = 5 ∧
    (reflect_interpolate_first_keyframe_f32 (.float 5) (.boolean true) 1).1
      = .error .malformedKeyframes ∧
    (reflect_interpolate_first_keyframe_f32 (.float 5) (.boolean true) 1).2
      = .float 5 ∧
    (reflect_interpolate_keyframes_f32 (.boolean true) (.floatList [1]) .Step
      0 0 1 1).1 = .error .propertyNotPresent ∧
    (reflect_interpolate_keyframes_f32 (.boolean true) (.floatList [1]) .Step
      0 0 1 1).2 = .boolean true := by
  refine ⟨rfl,
    c10_error_leaves_destination_unchanged.1 ℚ qOps (fun _ => none) .Step 0 0
      1 1 5 .keyframeNotPresent rfl,
    rfl,
    c10_error_leaves_destination_unchanged.2.1 (.float 5) (.boolean true) 1
      .malformedKeyframes rfl,
    rfl,
    c10_error_leaves_destination_unchanged.2.2 (.boolean true)
      (.floatList [1]) .Step 0 0 1 1 .propertyNotPresent rfl⟩
